import Mathlib

/-!
# Verification of the custom-domain-sdk domain lifecycle core

Shallow embedding of the domain lifecycle state machine
(`src/core/domain.machine.ts`, both source variants), the domain record
data model (`src/core/domain.types.ts`), the two reference store
implementations (`MemoryDomainStore` in `src/adapters/store.memory.ts`
and `InMemoryDomainStore` in `src/core/store.memory.ts`), and the
`DomainService` orchestrator (`src/core/domain.service.ts`, the
`AdapterInterface` variant).

External collaborators (DNS resolution, the provisioning adapter,
`crypto.randomUUID` / `crypto.randomBytes`, and the wall clock) are
modelled as a deterministic environment of oracle functions; the
wall clock is a strictly increasing tick counter, so two consecutive
`new Date()` calls yield distinct timestamps.  JavaScript `Map` objects
are modelled as association lists with replace-or-append insertion,
and promise-based methods as pure functions returning
`Except DomainError _` together with the updated state.  The state also
carries an event log recording the store create/update calls, the DNS
queries and the provisioning-adapter calls each operation performs.
-/

namespace CustomDomainSDK

/-- The seven lifecycle states of `DomainStatus` in `src/core/domain.types.ts`. -/
inductive DomainStatus
  | created
  | pending_verification
  | verified
  | pending_dns
  | provisioning_ssl
  | active
  | failed
deriving DecidableEq, Fintype

/-- The TypeScript string literal of each status value. -/
def statusString : DomainStatus → String
  | .created => "created"
  | .pending_verification => "pending_verification"
  | .verified => "verified"
  | .pending_dns => "pending_dns"
  | .provisioning_ssl => "provisioning_ssl"
  | .active => "active"
  | .failed => "failed"

/-- `verificationKey` constant in `src/core/domain.types.ts`. -/
def verificationKey : String := "_cdl-tenancy-verification"

/-- The persisted `Domain` record (`src/core/domain.types.ts`).
Timestamps are clock ticks of the model. -/
structure Domain where
  id : String
  hostname : String
  status : DomainStatus
  verificationToken : String
  adapterHostnameId : Option String
  error : Option String
  createdAt : Nat
  updatedAt : Nat
deriving DecidableEq

/-- A `DnsInstruction` (`src/core/domain.types.ts`); the `type` union
literal ("TXT" | "CNAME" | "A") is modelled as a string. -/
structure DnsInstruction where
  type : String
  name : String
  value : String
  description : String
deriving DecidableEq

/-- The `DomainInstructions` read projection (`src/core/domain.types.ts`). -/
structure DomainInstructions where
  hostname : String
  status : DomainStatus
  verification : Option DnsInstruction
  provisioning : Option (List DnsInstruction)
  nextStep : String
deriving DecidableEq

/-- Modelled from the spec: the error taxonomy of `src/errors/errors.ts`,
whose source file is not present under `src/` (only its importers are).
Section 7 of the spec lists `DomainNotFound`, `InvalidStateTransition`
(carrying from/to) and `DnsVerificationFailed` (carrying hostname,
expected value and a joined actual-values display string); adapter
errors propagate verbatim and are modelled by `adapterError` carrying
the thrown message, and a plain JavaScript `Error(msg)` (as thrown by
`syncStatus`) by `genericError`. -/
inductive DomainError
  | domainNotFound (hostname : String)
  | invalidStateTransition (src : DomainStatus) (dst : DomainStatus)
  | dnsVerificationFailed (hostname : String) (expected : String) (actual : String)
  | adapterError (message : String)
  | genericError (message : String)
deriving DecidableEq

/-- Modelled from the spec: the `.message` each error class renders
(`src/errors/errors.ts` is not under `src/`).  Only the message of an
adapter-thrown error is observable through the service (it is persisted
into the record's `error` field by `provisionDomain`), and the spec
fixes that one to be the adapter's own message, propagated verbatim. -/
def DomainError.message : DomainError → String
  | .domainNotFound h => "Domain not found: " ++ h
  | .invalidStateTransition s d =>
      "Invalid state transition from " ++ statusString s ++ " to " ++ statusString d
  | .dnsVerificationFailed h exp act =>
      "DNS verification failed for " ++ h ++ ": expected " ++ exp ++ ", got " ++ act
  | .adapterError m => m
  | .genericError m => m

/-- `STATE_TRANSITIONS` table of the authoritative functional state machine
(`src/core/domain.machine.ts`, the variant exporting `canTransition` /
`assertTransition`): `created: [pending_verification]`,
`pending_verification: [verified, failed]`, `verified: [pending_dns]`,
`pending_dns: [provisioning_ssl]`, `provisioning_ssl: [active, failed]`,
`active: []`, `failed: []`. -/
def STATE_TRANSITIONS : DomainStatus → List DomainStatus
  | .created => [.pending_verification]
  | .pending_verification => [.verified, .failed]
  | .verified => [.pending_dns]
  | .pending_dns => [.provisioning_ssl]
  | .provisioning_ssl => [.active, .failed]
  | .active => []
  | .failed => []

/-- `canTransition` (`src/core/domain.machine.ts`):
`STATE_TRANSITIONS[from].includes(to)`. -/
def canTransition (src dst : DomainStatus) : Bool :=
  (STATE_TRANSITIONS src).contains dst

/-- `assertTransition` (`src/core/domain.machine.ts`): throws
`InvalidStateTransitionError(from, to)` when `canTransition` is false. -/
def assertTransition (src dst : DomainStatus) : Except DomainError Unit :=
  if canTransition src dst then .ok () else .error (.invalidStateTransition src dst)

namespace DomainMachine

/-- The `DomainMachine.transitions` table of the class-based state-machine
variant (`src/core/domain.machine.ts`, the `DomainMachine` class), which
additionally allows `created -> failed`, `verified -> failed`,
`pending_dns -> failed`, `active -> failed` and
`failed -> pending_verification`. -/
def transitions : DomainStatus → List DomainStatus
  | .created => [.pending_verification, .failed]
  | .pending_verification => [.verified, .failed]
  | .verified => [.pending_dns, .failed]
  | .pending_dns => [.provisioning_ssl, .failed]
  | .provisioning_ssl => [.active, .failed]
  | .active => [.failed]
  | .failed => [.pending_verification]

/-- `DomainMachine.validateTransition`: throws
`InvalidStateTransitionError` when the next status is not allowed. -/
def validateTransition (current next : DomainStatus) : Except DomainError Unit :=
  if (transitions current).contains next then .ok ()
  else .error (.invalidStateTransition current next)

end DomainMachine

deriving instance DecidableEq for Except

/-- JavaScript `String.prototype.toLowerCase()` modelled characterwise. -/
def jsToLower (s : String) : String := String.mk (s.data.map Char.toLower)

/-- JavaScript `String.prototype.trim()`: drop leading and trailing
whitespace. -/
def jsTrim (s : String) : String :=
  String.mk (((s.data.dropWhile Char.isWhitespace).reverse.dropWhile Char.isWhitespace).reverse)

/-- JavaScript `.replace(/\x2f$/, "")`: strip one trailing slash. -/
def stripTrailingSlash (s : String) : String :=
  match s.data.getLast? with
  | some c => if c = '/' then String.mk s.data.dropLast else s
  | none => s

/-- JavaScript string truthiness fallback `s || dflt`: the empty string is
falsy, so it yields `dflt` exactly when `s` is empty. -/
def orIfEmpty (s dflt : String) : String := if s = "" then dflt else s

/-- A JavaScript `Map<string, Domain>` modelled as an association list;
`set` on an existing key replaces in place, otherwise appends. -/
def DomainMap := List (String × Domain)
deriving DecidableEq

/-- `Map.prototype.get`. -/
def mapGet : DomainMap → String → Option Domain
  | [], _ => none
  | (k, d) :: rest, key => if k = key then some d else mapGet rest key

/-- `Map.prototype.set`. -/
def mapSet : DomainMap → String → Domain → DomainMap
  | [], key, v => [(key, v)]
  | (k, d) :: rest, key, v =>
      if k = key then (key, v) :: rest else (k, d) :: mapSet rest key v

/-- The `DomainStore` interface (`src/core/store.adapter.ts` /
`src/adapters/store.adapter.ts`): lookup, create and update against a
backing map. -/
structure DomainStore where
  getByHostname : DomainMap → String → Option Domain
  create : DomainMap → Domain → DomainMap × Domain
  update : DomainMap → Domain → Except DomainError (DomainMap × Domain)

/-- `MemoryDomainStore` (`src/adapters/store.memory.ts`): raw hostnames as
keys, no normalization, `update` never fails (plain `Map.set`). -/
def MemoryDomainStore : DomainStore where
  getByHostname := fun m h => mapGet m h
  create := fun m d => (mapSet m d.hostname d, d)
  update := fun m d => .ok (mapSet m d.hostname d, d)

/-- The key normalization of `InMemoryDomainStore`
(`src/core/store.memory.ts`): `hostname.trim().toLowerCase()` - note it
does not strip a trailing slash. -/
def storeNormalizeHostname (hostname : String) : String :=
  jsToLower (jsTrim hostname)

/-- `InMemoryDomainStore` (`src/core/store.memory.ts`): keys are
trim+lowercase normalized, records are cloned (value semantics, which the
pure model gives for free), and `update` throws `DomainNotFoundError` when
no record exists under the key. -/
def InMemoryDomainStore : DomainStore where
  getByHostname := fun m h => mapGet m (storeNormalizeHostname h)
  create := fun m d =>
    let key := storeNormalizeHostname d.hostname
    (mapSet m key d, d)
  update := fun m d =>
    let key := storeNormalizeHostname d.hostname
    match mapGet m key with
    | none => .error (.domainNotFound d.hostname)
    | some _ => .ok (mapSet m key d, d)

/-- The shape of `getCustomHostnameStatus` responses consumed by
`syncStatus` (`status` plus optional `verificationErrors`); the status
union (`pending | active | failed | moved`) is modelled as a string, as
the service compares it against the literals "active" and "failed". -/
structure AdapterStatusResponse where
  status : String
  verificationErrors : Option (List String)
deriving DecidableEq

/-- External-call events recorded by the model so that theorems can speak
about which store, DNS and provisioning-adapter calls an operation makes. -/
inductive Event
  | storeCreate (key : String)
  | storeUpdate (key : String)
  | dnsTxt (name : String)
  | dnsCname (name : String)
  | dnsA (name : String)
  | adapterCreateCall (hostname : String)
  | adapterStatusCall (id : String)
deriving DecidableEq

/-- The deterministic environment: the DNS resolver collaborator, the
provisioning adapter collaborator (whose calls may fail), the configured
`cnameTarget`, and oracle streams for `crypto.randomUUID` and
`crypto.randomBytes` (one byte per index). -/
structure Env where
  resolveTxt : String → List String
  resolveCname : String → List String
  resolveA : String → List String
  adapterCreate : String → Except DomainError String
  adapterStatus : String → Except DomainError AdapterStatusResponse
  cnameTarget : String
  uuid : Nat → String
  bytes : Nat → Nat

/-- The mutable world threaded through every operation: the store's map,
consumption counters for the uuid and random-bytes streams, the strictly
increasing clock, and the event log. -/
structure ServiceState where
  map : DomainMap
  uuidCtr : Nat
  tokCtr : Nat
  clock : Nat
  log : List Event
deriving DecidableEq

/-- The empty initial state. -/
def initState : ServiceState :=
  { map := [], uuidCtr := 0, tokCtr := 0, clock := 0, log := [] }

/-- Lower-case hex digit for a value below 16. -/
def hexChar (n : Nat) : Char :=
  if n < 10 then Char.ofNat (48 + n) else Char.ofNat (87 + n)

/-- The two lower-case hex digits of one byte. -/
def byteToHexChars (b : Nat) : List Char :=
  [hexChar ((b % 256) / 16), hexChar (b % 16)]

/-- `Buffer.prototype.toString("hex")`: lower-case hex rendering. -/
def bytesToHex (bs : List Nat) : String :=
  String.mk (bs.flatMap byteToHexChars)

/-- `randomBytes(16)`: the next 16 bytes of the entropy stream (call
number `k` consumes indices `16*k` through `16*k + 15`). -/
def randomBytes16 (env : Env) (k : Nat) : List Nat :=
  (List.range 16).map (fun i => env.bytes (16 * k + i))

/-- Modelled from the spec: the canonical adjacency table of section 4.1
(`created -> pending_verification`; `pending_verification -> verified, failed`;
`verified -> pending_dns`; `pending_dns -> provisioning_ssl, failed`;
`provisioning_ssl -> active, failed`; `active` and `failed` terminal),
written down to be compared with the source's `canTransition`. -/
def specCanTransition (src dst : DomainStatus) : Bool :=
  match src, dst with
  | .created, .pending_verification => true
  | .pending_verification, .verified => true
  | .pending_verification, .failed => true
  | .verified, .pending_dns => true
  | .pending_dns, .provisioning_ssl => true
  | .pending_dns, .failed => true
  | .provisioning_ssl, .active => true
  | .provisioning_ssl, .failed => true
  | _, _ => false

namespace DomainService

/-- `DomainService.normalizeHostname` (`src/core/domain.service.ts`):
`hostname.toLowerCase().trim().replace(/\x2f$/, "")`. -/
def normalizeHostname (hostname : String) : String :=
  stripTrailingSlash (jsTrim (jsToLower hostname))

/-- `DomainService.generateToken`:
`"vc-token-" + randomBytes(16).toString("hex")`; the consumed entropy-call
index is the model's token counter. -/
def generateToken (env : Env) (k : Nat) : String :=
  "vc-token-" ++ bytesToHex (randomBytes16 env k)

/-- `DomainService.getNextStepMessage`: seven fixed literal messages (the
TypeScript `default` branch is unreachable over the closed enum). -/
def getNextStepMessage : DomainStatus → String
  | .created => "Initializing domain..."
  | .pending_verification => "Add the TXT record to your DNS provider."
  | .verified => "DNS verified. You can now get DNS instructions for provisioning."
  | .pending_dns => "Point your CNAME record to our edge."
  | .provisioning_ssl => "SSL is being provisioned. This may take a few minutes."
  | .active => "Domain is active and ready."
  | .failed => "Process failed. Check logs and retry."

/-- `DomainService.getInstructions`: the rendered projection; the TXT
verification block appears exactly on `pending_verification` and the
CNAME provisioning block exactly on `pending_dns` / `provisioning_ssl`. -/
def getInstructions (env : Env) (d : Domain) : DomainInstructions :=
  let base : DomainInstructions :=
    { hostname := d.hostname
      status := d.status
      verification := none
      provisioning := none
      nextStep := getNextStepMessage d.status }
  let base :=
    if d.status = .pending_verification then
      { base with
          verification := some
            { type := "TXT"
              name := verificationKey ++ "." ++ d.hostname
              value := d.verificationToken
              description := "Add this TXT record to verify ownership of the domain." } }
    else base
  if d.status = .pending_dns ∨ d.status = .provisioning_ssl then
    { base with
        provisioning := some
          [{ type := "CNAME"
             name := d.hostname
             value := env.cnameTarget
             description := "Point your domain to our edge network." }] }
  else base

/-- `DomainService.transition` (private helper): assert the transition,
set the new status, refresh `updatedAt`, set the error field when the
`error` argument is truthy (JavaScript: `undefined` and `""` are falsy),
persist via `store.update` and return the instructions rendered from the
store's returned record. -/
def transition (store : DomainStore) (env : Env) (d : Domain)
    (next : DomainStatus) (err : Option String) (s : ServiceState) :
    Except DomainError DomainInstructions × ServiceState :=
  match assertTransition d.status next with
  | .error e => (.error e, s)
  | .ok _ =>
    let d2 : Domain :=
      { d with
          status := next
          updatedAt := s.clock
          error := match err with
            | some m => if m = "" then d.error else some m
            | none => d.error }
    let s2 : ServiceState :=
      { s with clock := s.clock + 1, log := s.log ++ [Event.storeUpdate d2.hostname] }
    match store.update s2.map d2 with
    | .error e => (.error e, s2)
    | .ok (m, updated) => (.ok (getInstructions env updated), { s2 with map := m })

/-- `DomainService.createDomain`: idempotent short-circuit on an existing
record; otherwise build a fresh record (`created`), assert and apply
`created -> pending_verification`, persist via a single store `create`
call and return its instructions. -/
def createDomain (store : DomainStore) (env : Env) (hostname : String)
    (s : ServiceState) : Except DomainError DomainInstructions × ServiceState :=
  match store.getByHostname s.map hostname with
  | some existing => (.ok (getInstructions env existing), s)
  | none =>
    let id := env.uuid s.uuidCtr
    let tok := generateToken env s.tokCtr
    let s1 : ServiceState :=
      { s with uuidCtr := s.uuidCtr + 1, tokCtr := s.tokCtr + 1, clock := s.clock + 2 }
    let d : Domain :=
      { id := id
        hostname := normalizeHostname hostname
        status := .created
        verificationToken := tok
        adapterHostnameId := none
        error := none
        createdAt := s.clock
        updatedAt := s.clock + 1 }
    match assertTransition .created .pending_verification with
    | .error e => (.error e, s1)
    | .ok _ =>
      let d := { d with status := DomainStatus.pending_verification }
      let (m, _) := store.create s1.map d
      (.ok (getInstructions env d),
       { s1 with map := m, log := s1.log ++ [Event.storeCreate d.hostname] })

/-- `DomainService.checkVerification`: idempotent on `verified`; otherwise
assert reachability of `verified`, query TXT records at
`<verificationKey>.<hostname>`, transition and persist when the stored
token is present, else throw `DnsVerificationFailedError` with the joined
records (or "none found" when the joined display is empty). -/
def checkVerification (store : DomainStore) (env : Env) (hostname : String)
    (s : ServiceState) : Except DomainError DomainInstructions × ServiceState :=
  match store.getByHostname s.map hostname with
  | none => (.error (.domainNotFound hostname), s)
  | some d =>
    if d.status = .verified then (.ok (getInstructions env d), s)
    else
      match assertTransition d.status .verified with
      | .error e => (.error e, s)
      | .ok _ =>
        let name := verificationKey ++ "." ++ d.hostname
        let txtRecords := env.resolveTxt name
        let s1 : ServiceState := { s with log := s.log ++ [Event.dnsTxt name] }
        if txtRecords.contains d.verificationToken then
          transition store env d .verified none s1
        else
          (.error (.dnsVerificationFailed d.hostname d.verificationToken
            (orIfEmpty (String.intercalate ", " txtRecords) "none found")), s1)

/-- `DomainService.getDnsInstructions`: idempotent on `pending_dns`;
otherwise assert and apply the transition to `pending_dns`. -/
def getDnsInstructions (store : DomainStore) (env : Env) (hostname : String)
    (s : ServiceState) : Except DomainError DomainInstructions × ServiceState :=
  match store.getByHostname s.map hostname with
  | none => (.error (.domainNotFound hostname), s)
  | some d =>
    if d.status = .pending_dns then (.ok (getInstructions env d), s)
    else
      match assertTransition d.status .pending_dns with
      | .error e => (.error e, s)
      | .ok _ => transition store env d .pending_dns none s

/-- `DomainService.provisionDomain`: idempotent on `provisioning_ssl`;
assert reachability; resolve CNAME and A records; when the configured
target is not among the CNAMEs and there are no A records, throw
`DnsVerificationFailedError` without calling the adapter; otherwise call
the adapter, store its reference id and transition to `provisioning_ssl`;
on adapter failure, attempt the transition to `failed` with the adapter's
message and rethrow the original error (a throw from that inner
transition propagates instead, as in a JavaScript `catch` block). -/
def provisionDomain (store : DomainStore) (env : Env) (hostname : String)
    (s : ServiceState) : Except DomainError DomainInstructions × ServiceState :=
  match store.getByHostname s.map hostname with
  | none => (.error (.domainNotFound hostname), s)
  | some d =>
    if d.status = .provisioning_ssl then (.ok (getInstructions env d), s)
    else
      match assertTransition d.status .provisioning_ssl with
      | .error e => (.error e, s)
      | .ok _ =>
        let c_names := env.resolveCname d.hostname
        let aRecords := env.resolveA d.hostname
        let s1 : ServiceState :=
          { s with log := s.log ++ [Event.dnsCname d.hostname, Event.dnsA d.hostname] }
        if ¬ c_names.contains env.cnameTarget ∧ aRecords = [] then
          (.error (.dnsVerificationFailed d.hostname env.cnameTarget
            (orIfEmpty (String.intercalate ", " (c_names ++ aRecords)) "none")), s1)
        else
          let s2 : ServiceState :=
            { s1 with log := s1.log ++ [Event.adapterCreateCall d.hostname] }
          match env.adapterCreate d.hostname with
          | .ok adapterId =>
            let d := { d with adapterHostnameId := some adapterId }
            transition store env d .provisioning_ssl none s2
          | .error err =>
            match transition store env d .failed (some err.message) s2 with
            | (.error e2, s3) => (.error e2, s3)
            | (.ok _, s3) => (.error err, s3)

/-- `DomainService.syncStatus`: idempotent on `active`; throw a plain
error when no adapter reference id is recorded; otherwise map the
adapter-reported status: "active" and "failed" transition (the latter
persisting the joined `verificationErrors`), anything else returns the
current instructions unchanged; adapter exceptions propagate. -/
def syncStatus (store : DomainStore) (env : Env) (hostname : String)
    (s : ServiceState) : Except DomainError DomainInstructions × ServiceState :=
  match store.getByHostname s.map hostname with
  | none => (.error (.domainNotFound hostname), s)
  | some d =>
    if d.status = .active then (.ok (getInstructions env d), s)
    else
      match d.adapterHostnameId with
      | none => (.error (.genericError "No adapterHostnameId found for domain"), s)
      | some aid =>
        let s1 : ServiceState := { s with log := s.log ++ [Event.adapterStatusCall aid] }
        match env.adapterStatus aid with
        | .error e => (.error e, s1)
        | .ok cfStatus =>
          if cfStatus.status = "active" then transition store env d .active none s1
          else if cfStatus.status = "failed" then
            transition store env d .failed
              (cfStatus.verificationErrors.map (String.intercalate ", ")) s1
          else (.ok (getInstructions env d), s1)

/-- `DomainService.getStatus`: pure read. -/
def getStatus (store : DomainStore) (env : Env) (hostname : String)
    (s : ServiceState) : Except DomainError DomainInstructions × ServiceState :=
  match store.getByHostname s.map hostname with
  | none => (.error (.domainNotFound hostname), s)
  | some d => (.ok (getInstructions env d), s)

end DomainService

/-- One caller-facing lifecycle operation together with its hostname
argument. -/
inductive Op
  | createDomain (hostname : String)
  | checkVerification (hostname : String)
  | getDnsInstructions (hostname : String)
  | provisionDomain (hostname : String)
  | syncStatus (hostname : String)
  | getStatus (hostname : String)
deriving DecidableEq

/-- Dispatch one operation on the service. -/
def runOp (store : DomainStore) (env : Env) :
    Op → ServiceState → Except DomainError DomainInstructions × ServiceState
  | .createDomain h, s => DomainService.createDomain store env h s
  | .checkVerification h, s => DomainService.checkVerification store env h s
  | .getDnsInstructions h, s => DomainService.getDnsInstructions store env h s
  | .provisionDomain h, s => DomainService.provisionDomain store env h s
  | .syncStatus h, s => DomainService.syncStatus store env h s
  | .getStatus h, s => DomainService.getStatus store env h s

/-- Run a sequence of operations, threading the state. -/
def runOps (store : DomainStore) (env : Env) : List Op → ServiceState → ServiceState
  | [], s => s
  | o :: rest, s => runOps store env rest (runOp store env o s).2

/-- The states visited while running a sequence of operations (the given
state first). -/
def statesOf (store : DomainStore) (env : Env) : List Op → ServiceState → List ServiceState
  | [], s => [s]
  | o :: rest, s => s :: statesOf store env rest (runOp store env o s).2

/-! ## Concrete environments and fixtures used by witnesses and
counterexamples -/

/-- A baseline concrete environment: empty DNS answers, a succeeding
adapter, zero entropy, numbered uuids. -/
def env0 : Env :=
  { resolveTxt := fun _ => []
    resolveCname := fun _ => []
    resolveA := fun _ => []
    adapterCreate := fun _ => .ok "cf-1"
    adapterStatus := fun _ => .ok { status := "pending", verificationErrors := none }
    cnameTarget := "edge.example.com"
    uuid := fun n => "id-" ++ Nat.repr n
    bytes := fun _ => 0 }

/-- The token generated from the zero entropy stream of `env0`. -/
def tok0 : String := "vc-token-00000000000000000000000000000000"

/-- A record sitting in `pending_dns`, as left by `getDnsInstructions`. -/
def domPendingDns : Domain :=
  { id := "id-0"
    hostname := "a.com"
    status := .pending_dns
    verificationToken := tok0
    adapterHostnameId := none
    error := none
    createdAt := 0
    updatedAt := 1 }

/-- A state whose store holds `domPendingDns` under its hostname key. -/
def stPendingDns : ServiceState :=
  { map := [("a.com", domPendingDns)], uuidCtr := 1, tokCtr := 1, clock := 2, log := [] }

/-- Environment for the provisioning-failure scenario: the CNAME check
passes and the adapter's create call throws "Adapter API Down". -/
def envAdapterDown : Env :=
  { env0 with
      resolveCname := fun _ => ["edge.example.com"]
      adapterCreate := fun _ => .error (.adapterError "Adapter API Down") }

/-! ## C1 -/

/-- C1: can_transition is claimed to return true exactly on the canonical
section-4.1 adjacency table. The code's table differs from the canonical
table in exactly one pair: `canTransition pending_dns failed` is `false`
(and `assertTransition` raises `InvalidStateTransition` there) although
the canonical table allows it; on every other pair the two agree, and the
class-based `DomainMachine` variant does allow the missing edge. -/
theorem canTransition_agrees_with_spec_except_pending_dns_failed :
    (∀ src dst, canTransition src dst =
      (specCanTransition src dst &&
        !((src == DomainStatus.pending_dns) && (dst == DomainStatus.failed)))) ∧
    specCanTransition .pending_dns .failed = true ∧
    canTransition .pending_dns .failed = false ∧
    assertTransition .pending_dns .failed =
      .error (.invalidStateTransition .pending_dns .failed) ∧
    (DomainMachine.transitions .pending_dns).contains .failed = true ∧
    DomainMachine.validateTransition .pending_dns .failed = .ok () := by
  decide

/-! ## C3 -/

/-- C3: with a `pending_dns` record whose DNS pre-check passes, an
adapter create failure is claimed to persist `failed` (with the adapter's
message) and re-raise the original error. Instead the catch block's
`transition(domain, "failed")` itself throws, because the state-machine
table has no `pending_dns -> failed` edge: the caller receives
`InvalidStateTransition pending_dns failed` (not the adapter error), and
the persisted record is completely unchanged (still `pending_dns`, no
error message, same `updatedAt`). -/
theorem provisionDomain_adapter_failure_raises_invalid_transition :
    (DomainService.provisionDomain InMemoryDomainStore envAdapterDown "a.com" stPendingDns).1 =
      .error (.invalidStateTransition .pending_dns .failed) ∧
    mapGet (DomainService.provisionDomain InMemoryDomainStore envAdapterDown
      "a.com" stPendingDns).2.map "a.com" = some domPendingDns ∧
    envAdapterDown.adapterCreate "a.com" = .error (.adapterError "Adapter API Down") ∧
    (DomainError.adapterError "Adapter API Down").message = "Adapter API Down" ∧
    envAdapterDown.resolveCname "a.com" = [envAdapterDown.cnameTarget] := by
  decide

/-! ## C4 -/

/-- Environment with pairwise distinct uuids and tokens, so that a
replacement record is observably different from the original. -/
def envFresh : Env := { env0 with bytes := fun n => n }

/-- C4 counterexample: `createDomain "a.com/"` twice does *not* return the
existing record on the second call. The service strips the trailing slash
only when building the new record, while the store's lookup key keeps it,
so the second call misses the existing record and creates a replacement:
two store `create` calls happen and the stored identity and verification
token change. -/
theorem createDomain_trailing_slash_creates_replacement :
    (mapGet (DomainService.createDomain InMemoryDomainStore envFresh "a.com/"
      initState).2.map "a.com").map Domain.id = some "id-0" ∧
    (mapGet (DomainService.createDomain InMemoryDomainStore envFresh "a.com/"
      (DomainService.createDomain InMemoryDomainStore envFresh "a.com/"
        initState).2).2.map "a.com").map Domain.id = some "id-1" ∧
    (mapGet (DomainService.createDomain InMemoryDomainStore envFresh "a.com/"
      (DomainService.createDomain InMemoryDomainStore envFresh "a.com/"
        initState).2).2.map "a.com").map Domain.verificationToken ≠
      (mapGet (DomainService.createDomain InMemoryDomainStore envFresh "a.com/"
        initState).2.map "a.com").map Domain.verificationToken ∧
    (DomainService.createDomain InMemoryDomainStore envFresh "a.com/"
      (DomainService.createDomain InMemoryDomainStore envFresh "a.com/"
        initState).2).2.log =
      [Event.storeCreate "a.com", Event.storeCreate "a.com"] := by
  decide

/-- C4 amended: for every hostname whose store key (trim + lowercase)
coincides with the service normalization (equivalently, whose trimmed
form has no trailing slash - true of every ordinary hostname), calling
`createDomain` twice starting from the empty store returns, on the second
call, the instructions of the very record stored by the first call (same
identity, token and status), performs no further store call and changes
nothing. -/
theorem createDomain_idempotent_on_storekey_stable_hostnames
    (env : Env) (h : String)
    (hn1 : storeNormalizeHostname h = DomainService.normalizeHostname h)
    (hn2 : storeNormalizeHostname (DomainService.normalizeHostname h) =
      DomainService.normalizeHostname h) :
    ∃ d : Domain,
      mapGet (DomainService.createDomain InMemoryDomainStore env h initState).2.map
        (DomainService.normalizeHostname h) = some d ∧
      d.id = env.uuid 0 ∧
      d.verificationToken = DomainService.generateToken env 0 ∧
      d.status = .pending_verification ∧
      (DomainService.createDomain InMemoryDomainStore env h initState).1 =
        .ok (DomainService.getInstructions env d) ∧
      DomainService.createDomain InMemoryDomainStore env h
        (DomainService.createDomain InMemoryDomainStore env h initState).2 =
        (.ok (DomainService.getInstructions env d),
         (DomainService.createDomain InMemoryDomainStore env h initState).2) := by
  refine ⟨{ id := env.uuid 0
            hostname := DomainService.normalizeHostname h
            status := .pending_verification
            verificationToken := DomainService.generateToken env 0
            adapterHostnameId := none
            error := none
            createdAt := 0
            updatedAt := 1 }, ?_, rfl, rfl, rfl, ?_, ?_⟩ <;>
    simp [DomainService.createDomain, InMemoryDomainStore, initState, mapGet,
      assertTransition, canTransition, STATE_TRANSITIONS, mapSet, hn1, hn2]

/-- C4 witness: the amended idempotence at the concrete hostname
"A.com". -/
theorem createDomain_idempotent_witness :
    (storeNormalizeHostname "A.com" = DomainService.normalizeHostname "A.com" ∧
     storeNormalizeHostname (DomainService.normalizeHostname "A.com") =
       DomainService.normalizeHostname "A.com") ∧
    ∃ d : Domain,
      mapGet (DomainService.createDomain InMemoryDomainStore env0 "A.com" initState).2.map
        (DomainService.normalizeHostname "A.com") = some d ∧
      d.id = env0.uuid 0 ∧
      d.verificationToken = DomainService.generateToken env0 0 ∧
      d.status = .pending_verification ∧
      (DomainService.createDomain InMemoryDomainStore env0 "A.com" initState).1 =
        .ok (DomainService.getInstructions env0 d) ∧
      DomainService.createDomain InMemoryDomainStore env0 "A.com"
        (DomainService.createDomain InMemoryDomainStore env0 "A.com" initState).2 =
        (.ok (DomainService.getInstructions env0 d),
         (DomainService.createDomain InMemoryDomainStore env0 "A.com" initState).2) :=
  ⟨⟨by decide, by decide⟩,
   createDomain_idempotent_on_storekey_stable_hostnames env0 "A.com" (by decide) (by decide)⟩

/-! ## C5 -/

/-- Is a character a lower-case hexadecimal digit? -/
def isLowerHexDigit (c : Char) : Bool := "0123456789abcdef".data.contains c

/-- Each hex digit of a byte is a lower-case hexadecimal character. -/
theorem byteToHexChars_hex (b : Nat) :
    ∀ c ∈ byteToHexChars b, isLowerHexDigit c = true := by
  have hdigit : ∀ n, n < 16 → isLowerHexDigit (hexChar n) = true := by decide
  intro c hc
  simp only [byteToHexChars, List.mem_cons, List.not_mem_nil, or_false] at hc
  rcases hc with rfl | rfl
  · exact hdigit _ (Nat.div_lt_of_lt_mul (by omega))
  · exact hdigit _ (Nat.mod_lt _ (by norm_num))

/-- The hex rendering of a byte list has two characters per byte. -/
theorem bytesToHex_length (bs : List Nat) : (bytesToHex bs).length = 2 * bs.length := by
  show (bs.flatMap byteToHexChars).length = 2 * bs.length
  induction bs with
  | nil => rfl
  | cons b rest ih =>
    simp only [List.flatMap_cons, List.length_append, ih, byteToHexChars,
      List.length_cons, List.length_nil]
    omega

/-- Every character of the hex rendering is a lower-case hex digit. -/
theorem bytesToHex_chars (bs : List Nat) :
    ∀ c ∈ (bytesToHex bs).data, isLowerHexDigit c = true := by
  intro c hc
  simp only [bytesToHex, String.mk, List.mem_flatMap] at hc
  obtain ⟨b, _, hcb⟩ := hc
  exact byteToHexChars_hex b c hcb

/-- C5: `createDomain` on a hostname with no existing record persists
exactly one new record through a single store `create` call (and no
`update`), keyed and named by the normalized hostname, in status
`pending_verification` (after asserting `created -> pending_verification`,
which succeeds), with a token of the shape `"vc-token-" ++ <32 lower-case
hex digits of 16 entropy bytes>`; the returned instructions carry status
`pending_verification` and a TXT instruction named
`<verificationKey>.<normalized h>` whose value is the record's token. -/
theorem createDomain_fresh_creates_pending_verification_record
    (env : Env) (h : String) (s : ServiceState)
    (h0 : InMemoryDomainStore.getByHostname s.map h = none) :
    (DomainService.createDomain InMemoryDomainStore env h s =
      (.ok (DomainService.getInstructions env
        { id := env.uuid s.uuidCtr
          hostname := DomainService.normalizeHostname h
          status := .pending_verification
          verificationToken := DomainService.generateToken env s.tokCtr
          adapterHostnameId := none
          error := none
          createdAt := s.clock
          updatedAt := s.clock + 1 }),
       { s with
          map := mapSet s.map
            (storeNormalizeHostname (DomainService.normalizeHostname h))
            { id := env.uuid s.uuidCtr
              hostname := DomainService.normalizeHostname h
              status := .pending_verification
              verificationToken := DomainService.generateToken env s.tokCtr
              adapterHostnameId := none
              error := none
              createdAt := s.clock
              updatedAt := s.clock + 1 }
          uuidCtr := s.uuidCtr + 1
          tokCtr := s.tokCtr + 1
          clock := s.clock + 2
          log := s.log ++ [Event.storeCreate (DomainService.normalizeHostname h)] })) ∧
    assertTransition .created .pending_verification = .ok () ∧
    (DomainService.getInstructions env
      { id := env.uuid s.uuidCtr
        hostname := DomainService.normalizeHostname h
        status := .pending_verification
        verificationToken := DomainService.generateToken env s.tokCtr
        adapterHostnameId := none
        error := none
        createdAt := s.clock
        updatedAt := s.clock + 1 }).status = .pending_verification ∧
    (DomainService.getInstructions env
      { id := env.uuid s.uuidCtr
        hostname := DomainService.normalizeHostname h
        status := .pending_verification
        verificationToken := DomainService.generateToken env s.tokCtr
        adapterHostnameId := none
        error := none
        createdAt := s.clock
        updatedAt := s.clock + 1 }).verification = some
      { type := "TXT"
        name := verificationKey ++ "." ++ DomainService.normalizeHostname h
        value := DomainService.generateToken env s.tokCtr
        description := "Add this TXT record to verify ownership of the domain." } ∧
    DomainService.generateToken env s.tokCtr =
      "vc-token-" ++ bytesToHex (randomBytes16 env s.tokCtr) ∧
    (bytesToHex (randomBytes16 env s.tokCtr)).length = 32 ∧
    (∀ c ∈ (bytesToHex (randomBytes16 env s.tokCtr)).data, isLowerHexDigit c = true) := by
  have h0m : mapGet s.map (storeNormalizeHostname h) = none := by
    simpa [InMemoryDomainStore] using h0
  refine ⟨?_, rfl, rfl, rfl, rfl, ?_, bytesToHex_chars _⟩
  · simp [DomainService.createDomain, h0m, assertTransition, canTransition,
      STATE_TRANSITIONS, InMemoryDomainStore]
  · rw [bytesToHex_length]
    simp [randomBytes16]

/-- C5 witness: the fresh-create behavior at `env0`, hostname "A.com/"
and the empty initial state. -/
theorem createDomain_fresh_witness :
    InMemoryDomainStore.getByHostname initState.map "A.com/" = none ∧
    ((DomainService.createDomain InMemoryDomainStore env0 "A.com/" initState).1 =
      .ok (DomainService.getInstructions env0
        { id := "id-0"
          hostname := "a.com"
          status := .pending_verification
          verificationToken := tok0
          adapterHostnameId := none
          error := none
          createdAt := 0
          updatedAt := 1 }) ∧
     (bytesToHex (randomBytes16 env0 0)).length = 32) := by
  have key := createDomain_fresh_creates_pending_verification_record env0 "A.com/"
    initState (by decide)
  refine ⟨by decide, ?_, key.2.2.2.2.2.1⟩
  rw [key.1]
  decide

/-! ## C6 -/

/-- A record sitting in `pending_verification`. -/
def domPendingVerification : Domain :=
  { id := "id-0"
    hostname := "a.com"
    status := .pending_verification
    verificationToken := tok0
    adapterHostnameId := none
    error := none
    createdAt := 0
    updatedAt := 1 }

/-- A state whose store holds `domPendingVerification`. -/
def stPendingVerification : ServiceState :=
  { map := [("a.com", domPendingVerification)], uuidCtr := 1, tokCtr := 1, clock := 2,
    log := [] }

/-- Environment whose TXT answer is a single empty-string record. -/
def envEmptyTxt : Env := { env0 with resolveTxt := fun _ => [""] }

/-- C6 counterexample: the claim says `DnsVerificationFailed` carries the
joined actual records, with the "none found" placeholder only when the
result is empty. With the non-empty TXT result `[""]` the joined display
is `""`, and the code (`txtRecords.join(", ") || "none found"`) carries
the placeholder instead of the joined value. -/
theorem checkVerification_empty_string_txt_placeholder :
    (DomainService.checkVerification InMemoryDomainStore envEmptyTxt "a.com"
      stPendingVerification).1 =
      .error (.dnsVerificationFailed "a.com" tok0 "none found") ∧
    envEmptyTxt.resolveTxt (verificationKey ++ "." ++ "a.com") = [""] ∧
    ([""] : List String) ≠ [] ∧
    String.intercalate ", " [""] = "" ∧
    ("none found" : String) ≠ "" := by
  decide

/-- C6 amended: for a record whose status can legally reach `verified`,
`checkVerification` queries TXT records at `<verificationKey>.<hostname>`
and transitions the record to `verified` and persists it iff the stored
token is among the returned values; otherwise it raises
`DnsVerificationFailed` carrying the hostname, the expected token, and
the joined actual records - or the "none found" placeholder whenever that
joined display string is empty (i.e. the result is empty or the single
empty string) - and the stored record, its status and its `updatedAt` are
unchanged. -/
theorem checkVerification_success_iff_token_present
    (env : Env) (h : String) (s : ServiceState) (d : Domain)
    (hd : InMemoryDomainStore.getByHostname s.map h = some d)
    (hcan : canTransition d.status .verified = true)
    (hkey : storeNormalizeHostname d.hostname = storeNormalizeHostname h) :
    ((env.resolveTxt (verificationKey ++ "." ++ d.hostname)).contains
        d.verificationToken = true →
      DomainService.checkVerification InMemoryDomainStore env h s =
        (.ok (DomainService.getInstructions env
          { d with status := .verified, updatedAt := s.clock }),
         { s with
            map := mapSet s.map (storeNormalizeHostname h)
              { d with status := .verified, updatedAt := s.clock }
            clock := s.clock + 1
            log := s.log ++ [Event.dnsTxt (verificationKey ++ "." ++ d.hostname),
              Event.storeUpdate d.hostname] })) ∧
    ((env.resolveTxt (verificationKey ++ "." ++ d.hostname)).contains
        d.verificationToken = false →
      DomainService.checkVerification InMemoryDomainStore env h s =
        (.error (.dnsVerificationFailed d.hostname d.verificationToken
          (orIfEmpty (String.intercalate ", "
            (env.resolveTxt (verificationKey ++ "." ++ d.hostname))) "none found")),
         { s with log := s.log ++ [Event.dnsTxt (verificationKey ++ "." ++ d.hostname)] })) := by
  have hdm : mapGet s.map (storeNormalizeHostname h) = some d := by
    simpa [InMemoryDomainStore] using hd
  have hst : d.status = .pending_verification := by
    revert hcan
    cases d.status <;> decide
  constructor <;> intro hmem <;>
    simp [DomainService.checkVerification, DomainService.transition, hdm, hst, hmem,
      assertTransition, canTransition, STATE_TRANSITIONS, InMemoryDomainStore, hkey] <;>
    simpa using hmem

/-- C6 witness: both branches at concrete inputs - with the stored token
among the TXT answers the record is persisted as `verified`; with a wrong
answer the failure carries the joined records and the state is unchanged. -/
theorem checkVerification_witness :
    (InMemoryDomainStore.getByHostname stPendingVerification.map "a.com" =
       some domPendingVerification ∧
     canTransition domPendingVerification.status .verified = true ∧
     storeNormalizeHostname domPendingVerification.hostname =
       storeNormalizeHostname "a.com") ∧
    DomainService.checkVerification InMemoryDomainStore
      { env0 with resolveTxt := fun _ => [tok0] } "a.com" stPendingVerification =
      (.ok (DomainService.getInstructions { env0 with resolveTxt := fun _ => [tok0] }
        { domPendingVerification with
            status := .verified
            updatedAt := stPendingVerification.clock }),
       { stPendingVerification with
          map := mapSet stPendingVerification.map (storeNormalizeHostname "a.com")
            { domPendingVerification with
                status := .verified
                updatedAt := stPendingVerification.clock }
          clock := stPendingVerification.clock + 1
          log := stPendingVerification.log ++
            [Event.dnsTxt (verificationKey ++ "." ++ domPendingVerification.hostname),
             Event.storeUpdate domPendingVerification.hostname] }) := by
  refine ⟨⟨by decide, by decide, by decide⟩, ?_⟩
  exact (checkVerification_success_iff_token_present
    { env0 with resolveTxt := fun _ => [tok0] } "a.com" stPendingVerification
    domPendingVerification (by decide) (by decide) (by decide)).1 (by decide)

/-! ## C7 -/

/-- Environment whose CNAME answer does not contain the configured
target and whose A-record answer is empty. -/
def envWrongCname : Env := { env0 with resolveCname := fun _ => ["wrong.target.com"] }

/-- C7: for a record that can legally reach `provisioning_ssl` (i.e. one
in `pending_dns`), when no resolved CNAME equals the configured target
and the A-record result is empty, `provisionDomain` resolves both record
types and then raises `DnsVerificationFailed` carrying the expected
target and the joined actuals (or "none"); the log shows the two DNS
queries and no adapter call, and the store, the clock (hence the record,
its status and `updatedAt`) are unchanged. -/
theorem provisionDomain_dns_mismatch_no_adapter_call
    (env : Env) (h : String) (s : ServiceState) (d : Domain)
    (hd : InMemoryDomainStore.getByHostname s.map h = some d)
    (hcan : canTransition d.status .provisioning_ssl = true)
    (hc : (env.resolveCname d.hostname).contains env.cnameTarget = false)
    (ha : env.resolveA d.hostname = []) :
    DomainService.provisionDomain InMemoryDomainStore env h s =
      (.error (.dnsVerificationFailed d.hostname env.cnameTarget
        (orIfEmpty (String.intercalate ", "
          (env.resolveCname d.hostname ++ env.resolveA d.hostname)) "none")),
       { s with log := s.log ++ [Event.dnsCname d.hostname, Event.dnsA d.hostname] }) ∧
    d.status = .pending_dns := by
  have hdm : mapGet s.map (storeNormalizeHostname h) = some d := by
    simpa [InMemoryDomainStore] using hd
  have hst : d.status = .pending_dns := by
    revert hcan
    cases d.status <;> decide
  have hcm : env.cnameTarget ∉ env.resolveCname d.hostname := by simpa using hc
  refine ⟨?_, hst⟩
  simp [DomainService.provisionDomain, hdm, hst, hcm, ha, assertTransition,
    canTransition, STATE_TRANSITIONS, InMemoryDomainStore]

/-- C7 witness: the DNS-mismatch failure at concrete inputs. -/
theorem provisionDomain_dns_mismatch_witness :
    (InMemoryDomainStore.getByHostname stPendingDns.map "a.com" = some domPendingDns ∧
     canTransition domPendingDns.status .provisioning_ssl = true ∧
     (envWrongCname.resolveCname domPendingDns.hostname).contains
       envWrongCname.cnameTarget = false ∧
     envWrongCname.resolveA domPendingDns.hostname = []) ∧
    DomainService.provisionDomain InMemoryDomainStore envWrongCname "a.com" stPendingDns =
      (.error (.dnsVerificationFailed domPendingDns.hostname envWrongCname.cnameTarget
        (orIfEmpty (String.intercalate ", "
          (envWrongCname.resolveCname domPendingDns.hostname ++
            envWrongCname.resolveA domPendingDns.hostname)) "none")),
       { stPendingDns with
          log := stPendingDns.log ++ [Event.dnsCname domPendingDns.hostname,
            Event.dnsA domPendingDns.hostname] }) ∧
    domPendingDns.status = .pending_dns :=
  ⟨⟨by decide, by decide, by decide, by decide⟩,
   provisionDomain_dns_mismatch_no_adapter_call envWrongCname "a.com" stPendingDns
     domPendingDns (by decide) (by decide) (by decide) (by decide)⟩

/-! ## C10 -/

/-- C10: in the DNS pre-check of `provisionDomain` a non-empty A-record
result alone suffices: for every environment whose `resolveA` answer is
non-empty, and for every CNAME answer whatsoever (in particular one not
containing the configured target), the provisioning adapter's create call
is made - the A-record values themselves are never compared against any
expected address, only their count matters. -/
theorem provisionDomain_nonempty_a_records_call_adapter
    (env : Env) (h : String) (s : ServiceState) (d : Domain)
    (hd : InMemoryDomainStore.getByHostname s.map h = some d)
    (hst : d.status = .pending_dns)
    (ha : env.resolveA d.hostname ≠ []) :
    ∃ rest, (DomainService.provisionDomain InMemoryDomainStore env h s).2.log =
      s.log ++ [Event.dnsCname d.hostname, Event.dnsA d.hostname,
        Event.adapterCreateCall d.hostname] ++ rest := by
  have hdm : mapGet s.map (storeNormalizeHostname h) = some d := by
    simpa [InMemoryDomainStore] using hd
  cases hac : env.adapterCreate d.hostname with
  | ok adapterId =>
    refine ⟨[Event.storeUpdate d.hostname], ?_⟩
    cases hg : mapGet s.map (storeNormalizeHostname d.hostname) <;>
      simp [DomainService.provisionDomain, DomainService.transition, hdm, hst, ha,
        hac, hg, assertTransition, canTransition, STATE_TRANSITIONS, InMemoryDomainStore]
  | error e =>
    refine ⟨[], ?_⟩
    simp [DomainService.provisionDomain, DomainService.transition, hdm, hst, ha,
      hac, assertTransition, canTransition, STATE_TRANSITIONS, InMemoryDomainStore]

/-- C10 witness: with a wrong CNAME but one A record, the adapter create
call happens. -/
theorem provisionDomain_nonempty_a_records_witness :
    (InMemoryDomainStore.getByHostname stPendingDns.map "a.com" = some domPendingDns ∧
     domPendingDns.status = .pending_dns ∧
     { envWrongCname with
        resolveA := fun _ => ["203.0.113.7"] }.resolveA domPendingDns.hostname ≠ []) ∧
    ∃ rest, (DomainService.provisionDomain InMemoryDomainStore
      { envWrongCname with resolveA := fun _ => ["203.0.113.7"] } "a.com"
      stPendingDns).2.log =
      stPendingDns.log ++ [Event.dnsCname domPendingDns.hostname,
        Event.dnsA domPendingDns.hostname,
        Event.adapterCreateCall domPendingDns.hostname] ++ rest :=
  ⟨⟨by decide, by decide, by decide⟩,
   provisionDomain_nonempty_a_records_call_adapter
     { envWrongCname with resolveA := fun _ => ["203.0.113.7"] } "a.com" stPendingDns
     domPendingDns (by decide) (by decide) (by decide)⟩

/-! ## C8 -/

/-- A record in `provisioning_ssl` holding an adapter reference id. -/
def domProvisioningSsl : Domain :=
  { domPendingDns with status := .provisioning_ssl, adapterHostnameId := some "cf-1" }

/-- A state whose store holds `domProvisioningSsl`. -/
def stProvisioningSsl : ServiceState :=
  { stPendingDns with map := [("a.com", domProvisioningSsl)] }

/-- A `failed` record still holding an adapter reference id (as left by a
failed `syncStatus`). -/
def domFailedRec : Domain := { domProvisioningSsl with status := .failed }

/-- A state whose store holds `domFailedRec`. -/
def stFailedRec : ServiceState := { stPendingDns with map := [("a.com", domFailedRec)] }

/-- Adapter reporting `failed` with an empty verification-errors list. -/
def envReportEmptyErrs : Env :=
  { env0 with adapterStatus := fun _ => .ok { status := "failed", verificationErrors := some [] } }

/-- Adapter reporting `active`. -/
def envReportActive : Env :=
  { env0 with adapterStatus := fun _ => .ok { status := "active", verificationErrors := none } }

/-- Adapter reporting `failed` with the scenario-D error list. -/
def envReportSslFailed : Env :=
  { env0 with
      adapterStatus := fun _ =>
        .ok { status := "failed", verificationErrors := some ["SSL resolution failed"] } }

/-- C8 counterexample, two corners. (1) When the adapter reports `failed`
with an *empty* `verificationErrors` list, the claim says the joined list
(the empty string) is persisted as the record's error field; the code's
truthiness guard skips the assignment, so the persisted error field stays
`none`. (2) For a `failed` record holding an adapter reference id whose
adapter now reports `active`, the claim says the record transitions to
`active`; the code instead raises `InvalidStateTransition failed active`
and leaves the record unchanged. -/
theorem syncStatus_corner_cases :
    ((mapGet (DomainService.syncStatus InMemoryDomainStore envReportEmptyErrs "a.com"
        stProvisioningSsl).2.map "a.com").map Domain.status = some .failed ∧
     (mapGet (DomainService.syncStatus InMemoryDomainStore envReportEmptyErrs "a.com"
        stProvisioningSsl).2.map "a.com").map Domain.error = some none ∧
     String.intercalate ", " ([] : List String) = "" ∧
     envReportEmptyErrs.adapterStatus "cf-1" =
       .ok { status := "failed", verificationErrors := some [] }) ∧
    ((DomainService.syncStatus InMemoryDomainStore envReportActive "a.com"
        stFailedRec).1 = .error (.invalidStateTransition .failed .active) ∧
     mapGet (DomainService.syncStatus InMemoryDomainStore envReportActive "a.com"
        stFailedRec).2.map "a.com" = some domFailedRec) := by
  decide

/-- C8 amended: `syncStatus` returns the current instructions unchanged
when the record is already `active`; raises a plain error when no adapter
reference id is recorded; and otherwise, for a record in
`provisioning_ssl`, maps the adapter report: `active` transitions the
record to `active`; `failed` transitions it to `failed`, persisting the
joined `verificationErrors` as the error field whenever that joined text
is non-empty (when the list is absent, empty, or joins to the empty
string the previous error field is kept); any other reported status
leaves the record and instructions unchanged. -/
theorem syncStatus_behavior
    (env : Env) (h : String) (s : ServiceState) (d : Domain)
    (hd : InMemoryDomainStore.getByHostname s.map h = some d)
    (hkey : storeNormalizeHostname d.hostname = storeNormalizeHostname h) :
    (d.status = .active →
      DomainService.syncStatus InMemoryDomainStore env h s =
        (.ok (DomainService.getInstructions env d), s)) ∧
    (d.status ≠ .active → d.adapterHostnameId = none →
      DomainService.syncStatus InMemoryDomainStore env h s =
        (.error (.genericError "No adapterHostnameId found for domain"), s)) ∧
    (∀ aid cf, d.status = .provisioning_ssl → d.adapterHostnameId = some aid →
      env.adapterStatus aid = .ok cf →
      ((cf.status = "active" →
        DomainService.syncStatus InMemoryDomainStore env h s =
          (.ok (DomainService.getInstructions env
            { d with status := .active, updatedAt := s.clock }),
           { s with
              map := mapSet s.map (storeNormalizeHostname h)
                { d with status := .active, updatedAt := s.clock }
              clock := s.clock + 1
              log := s.log ++
                [Event.adapterStatusCall aid, Event.storeUpdate d.hostname] })) ∧
       (cf.status = "failed" →
        DomainService.syncStatus InMemoryDomainStore env h s =
          (.ok (DomainService.getInstructions env
            { d with
                status := .failed
                updatedAt := s.clock
                error := match cf.verificationErrors with
                  | some l => if String.intercalate ", " l = "" then d.error
                      else some (String.intercalate ", " l)
                  | none => d.error }),
           { s with
              map := mapSet s.map (storeNormalizeHostname h)
                { d with
                    status := .failed
                    updatedAt := s.clock
                    error := match cf.verificationErrors with
                      | some l => if String.intercalate ", " l = "" then d.error
                          else some (String.intercalate ", " l)
                      | none => d.error }
              clock := s.clock + 1
              log := s.log ++
                [Event.adapterStatusCall aid, Event.storeUpdate d.hostname] })) ∧
       (cf.status ≠ "active" → cf.status ≠ "failed" →
        DomainService.syncStatus InMemoryDomainStore env h s =
          (.ok (DomainService.getInstructions env d),
           { s with log := s.log ++ [Event.adapterStatusCall aid] })))) := by
  have hdm : mapGet s.map (storeNormalizeHostname h) = some d := by
    simpa [InMemoryDomainStore] using hd
  refine ⟨?_, ?_, ?_⟩
  · intro hact
    simp [DomainService.syncStatus, hd, hdm, hact, InMemoryDomainStore]
  · intro hnact hnone
    simp [DomainService.syncStatus, hd, hdm, hnact, hnone, InMemoryDomainStore]
  · intro aid cf hst haid hcf
    refine ⟨?_, ?_, ?_⟩
    · intro h1
      cases hve : cf.verificationErrors <;>
        simp [DomainService.syncStatus, DomainService.transition, hdm, hst, haid,
          hcf, h1, hve, assertTransition, canTransition, STATE_TRANSITIONS,
          InMemoryDomainStore, hkey]
    · intro h1
      have hna : cf.status ≠ "active" := by
        rw [h1]
        decide
      cases hve : cf.verificationErrors with
      | none =>
        simp [DomainService.syncStatus, DomainService.transition, hdm, hst, haid,
          hcf, h1, hna, hve, assertTransition, canTransition, STATE_TRANSITIONS,
          InMemoryDomainStore, hkey]
      | some l =>
        by_cases hl : String.intercalate ", " l = "" <;>
          simp [DomainService.syncStatus, DomainService.transition, hdm, hst, haid,
            hcf, h1, hna, hve, hl, assertTransition, canTransition, STATE_TRANSITIONS,
            InMemoryDomainStore, hkey]
    · intro h1 h2
      simp [DomainService.syncStatus, hd, hdm, hst, haid, hcf, h1, h2,
        InMemoryDomainStore]

/-- C8 witness: end-to-end scenario D - `syncStatus` on a
`provisioning_ssl` record whose adapter reports failed with
`["SSL resolution failed"]` persists status `failed` with that exact
error message. -/
theorem syncStatus_scenario_d_witness :
    (InMemoryDomainStore.getByHostname stProvisioningSsl.map "a.com" =
       some domProvisioningSsl ∧
     storeNormalizeHostname domProvisioningSsl.hostname =
       storeNormalizeHostname "a.com" ∧
     domProvisioningSsl.status = .provisioning_ssl ∧
     domProvisioningSsl.adapterHostnameId = some "cf-1" ∧
     envReportSslFailed.adapterStatus "cf-1" =
       .ok { status := "failed", verificationErrors := some ["SSL resolution failed"] }) ∧
    (mapGet (DomainService.syncStatus InMemoryDomainStore envReportSslFailed "a.com"
      stProvisioningSsl).2.map "a.com").map Domain.status = some .failed ∧
    (mapGet (DomainService.syncStatus InMemoryDomainStore envReportSslFailed "a.com"
      stProvisioningSsl).2.map "a.com").map Domain.error =
      some (some "SSL resolution failed") := by
  refine ⟨⟨by decide, by decide, by decide, by decide, by decide⟩, ?_, ?_⟩ <;>
    rw [((syncStatus_behavior envReportSslFailed "a.com" stProvisioningSsl
      domProvisioningSsl (by decide) (by decide)).2.2 "cf-1"
      { status := "failed", verificationErrors := some ["SSL resolution failed"] }
      (by decide) (by decide) (by decide)).2.1 (by decide)] <;>
    decide

/-! ## C9 -/

/-- C9 counterexample: full normalization is *not* applied at every
lookup. After `createDomain "a.com"`, `getStatus "a.com/"` raises
`DomainNotFound` (the store's lookup key keeps the trailing slash the
service normalization would strip), while `getStatus` on the normalized
hostname finds the record - so an operation on `h` does not behave as the
same operation on `normalize(h)`. -/
theorem getStatus_trailing_slash_not_normalized :
    DomainService.normalizeHostname "a.com/" = "a.com" ∧
    (DomainService.getStatus InMemoryDomainStore env0 "a.com/"
      (DomainService.createDomain InMemoryDomainStore env0 "a.com" initState).2).1 =
      .error (.domainNotFound "a.com/") ∧
    (DomainService.getStatus InMemoryDomainStore env0
      (DomainService.normalizeHostname "a.com/")
      (DomainService.createDomain InMemoryDomainStore env0 "a.com" initState).2).1 =
      .ok (DomainService.getInstructions env0
        { id := "id-0"
          hostname := "a.com"
          status := .pending_verification
          verificationToken := tok0
          adapterHostnameId := none
          error := none
          createdAt := 0
          updatedAt := 1 }) := by
  decide

/-- C9 amended: the service applies full normalization (trim, lower-case,
strip one trailing slash) only when building the record at creation; at
lookup time the store applies its own trim + lower-case key
normalization. Consequently (1) the quoted round trip holds -
`createDomain "Example.COM/"` followed by `getStatus "example.com"`
resolves to the very same record and leaves the state untouched - and
(2, 3) every operation's lookup depends on the hostname only through the
store key, so hostnames equal up to trim + lower-case (though not up to
trailing slashes) are interchangeable. -/
theorem lookup_normalization_roundtrip :
    ((DomainService.getStatus InMemoryDomainStore env0 "example.com"
       (DomainService.createDomain InMemoryDomainStore env0 "Example.COM/" initState).2).1 =
      (DomainService.createDomain InMemoryDomainStore env0 "Example.COM/" initState).1 ∧
     (DomainService.getStatus InMemoryDomainStore env0 "example.com"
       (DomainService.createDomain InMemoryDomainStore env0 "Example.COM/" initState).2).2 =
      (DomainService.createDomain InMemoryDomainStore env0 "Example.COM/" initState).2) ∧
    (∀ (m : DomainMap) (h1 h2 : String),
      storeNormalizeHostname h1 = storeNormalizeHostname h2 →
      InMemoryDomainStore.getByHostname m h1 = InMemoryDomainStore.getByHostname m h2) ∧
    (∀ (env : Env) (s : ServiceState) (h1 h2 : String),
      storeNormalizeHostname h1 = storeNormalizeHostname h2 →
      InMemoryDomainStore.getByHostname s.map h1 ≠ none →
      DomainService.getStatus InMemoryDomainStore env h1 s =
        DomainService.getStatus InMemoryDomainStore env h2 s) := by
  refine ⟨⟨by decide, by decide⟩, ?_, ?_⟩
  · intro m h1 h2 heq
    simp [InMemoryDomainStore, heq]
  · intro env s h1 h2 heq hne
    have hl : InMemoryDomainStore.getByHostname s.map h1 =
        InMemoryDomainStore.getByHostname s.map h2 := by
      simp [InMemoryDomainStore, heq]
    cases hg : InMemoryDomainStore.getByHostname s.map h2 with
    | none => exact absurd (hl.trans hg) hne
    | some dd => simp [DomainService.getStatus, hl, hg]

/-- C9 witness: with a record stored for "a.com", `getStatus " A.com "`
and `getStatus "a.com"` coincide (trim + lower-case interchangeability at
a concrete input). -/
theorem lookup_normalization_witness :
    (storeNormalizeHostname " A.com " = storeNormalizeHostname "a.com" ∧
     InMemoryDomainStore.getByHostname
       (DomainService.createDomain InMemoryDomainStore env0 "a.com" initState).2.map
       " A.com " ≠ none) ∧
    DomainService.getStatus InMemoryDomainStore env0 " A.com "
      (DomainService.createDomain InMemoryDomainStore env0 "a.com" initState).2 =
    DomainService.getStatus InMemoryDomainStore env0 "a.com"
      (DomainService.createDomain InMemoryDomainStore env0 "a.com" initState).2 :=
  ⟨⟨by decide, by decide⟩,
   lookup_normalization_roundtrip.2.2 env0
     (DomainService.createDomain InMemoryDomainStore env0 "a.com" initState).2
     " A.com " "a.com" (by decide) (by decide)⟩

/-! ## C2 -/

theorem mapGet_mapSet_self (m : DomainMap) (k : String) (v : Domain) :
    mapGet (mapSet m k v) k = some v := by
  induction m with
  | nil => simp [mapGet, mapSet]
  | cons e rest ih =>
    by_cases he : e.1 = k <;> simp [mapGet, mapSet, he, ih]

theorem mapGet_mapSet_ne (m : DomainMap) (k k' : String) (v : Domain)
    (h : k ≠ k') : mapGet (mapSet m k v) k' = mapGet m k' := by
  induction m with
  | nil => simp [mapGet, mapSet, h]
  | cons e rest ih =>
    by_cases he : e.1 = k
    · subst he
      simp [mapGet, mapSet, h]
    · by_cases he' : e.1 = k' <;> simp [mapGet, mapSet, he, he', ih, Ne.symm h]

/-- The C2 per-step store evolution invariant: every record persisted
before a step is still present after it, and is either unchanged or moved
along one legal state-machine edge with a strictly larger `updatedAt`. -/
def stepOK (m m' : DomainMap) : Prop :=
  ∀ k r, mapGet m k = some r → ∃ r', mapGet m' k = some r' ∧
    (r' = r ∨ (canTransition r.status r'.status = true ∧ r.updatedAt < r'.updatedAt))

/-- Reachable-state well-formedness threaded through the trace induction:
every stored record lives under its own hostname as key and was stamped
before the current clock. -/
def WF (s : ServiceState) : Prop :=
  ∀ k r, mapGet s.map k = some r → r.hostname = k ∧ r.updatedAt < s.clock

theorem stepOK_refl (m : DomainMap) : stepOK m m :=
  fun _ r h => ⟨r, h, Or.inl rfl⟩

theorem stepOK_set_new (m : DomainMap) (k : String) (v : Domain)
    (h : mapGet m k = none) : stepOK m (mapSet m k v) := by
  intro k' r hk'
  by_cases he : k = k'
  · subst he
    rw [h] at hk'
    cases hk'
  · exact ⟨r, by rw [mapGet_mapSet_ne m k k' v he]; exact hk', Or.inl rfl⟩

theorem stepOK_set_edge (m : DomainMap) (k : String) (r0 v : Domain)
    (h : mapGet m k = some r0) (he : canTransition r0.status v.status = true)
    (hu : r0.updatedAt < v.updatedAt) : stepOK m (mapSet m k v) := by
  intro k' r hk'
  by_cases heq : k = k'
  · subst heq
    rw [h] at hk'
    injection hk' with h'
    subst h'
    exact ⟨v, mapGet_mapSet_self m k v, Or.inr ⟨he, hu⟩⟩
  · exact ⟨r, by rw [mapGet_mapSet_ne m k k' v heq]; exact hk', Or.inl rfl⟩

/-- Shape of `DomainService.transition` over the `MemoryDomainStore`:
either the asserted edge is illegal and the state is returned untouched,
or the edge is legal and exactly one map slot - the record's hostname -
is overwritten with the restamped record. -/
theorem transition_snd (env : Env) (d : Domain) (next : DomainStatus)
    (err : Option String) (s : ServiceState) :
    (canTransition d.status next = false ∧
      DomainService.transition MemoryDomainStore env d next err s =
        (.error (.invalidStateTransition d.status next), s)) ∨
    (canTransition d.status next = true ∧
      ∃ d2 : Domain, d2.hostname = d.hostname ∧ d2.status = next ∧
        d2.updatedAt = s.clock ∧
        (DomainService.transition MemoryDomainStore env d next err s).2 =
          { s with
              map := mapSet s.map d.hostname d2
              clock := s.clock + 1
              log := s.log ++ [Event.storeUpdate d.hostname] }) := by
  by_cases hc : canTransition d.status next
  · right
    refine ⟨hc, { d with
        status := next
        updatedAt := s.clock
        error := match err with
          | some m => if m = "" then d.error else some m
          | none => d.error }, rfl, rfl, rfl, ?_⟩
    simp [DomainService.transition, assertTransition, hc, MemoryDomainStore]
  · left
    refine ⟨by simpa using hc, ?_⟩
    simp [DomainService.transition, assertTransition, hc]

/-- A `transition` call made from a state sharing map and clock with a
well-formed state `s0`, on a working copy `d` sharing hostname, status
and timestamp with the stored record `d0`, preserves the step invariant
and well-formedness. -/
theorem transition_step (env : Env) (d : Domain) (next : DomainStatus)
    (err : Option String) (s0 s : ServiceState) (d0 : Domain)
    (hmap : s.map = s0.map) (hclock : s.clock = s0.clock) (hwf : WF s0)
    (hd0 : mapGet s0.map d.hostname = some d0)
    (hst : d.status = d0.status) :
    stepOK s0.map (DomainService.transition MemoryDomainStore env d next err s).2.map ∧
    WF (DomainService.transition MemoryDomainStore env d next err s).2 := by
  rcases transition_snd env d next err s with ⟨_, heq⟩ | ⟨hc, d2, hh, hs2, hu2, heq⟩
  · rw [heq]
    constructor
    · show stepOK s0.map s.map
      rw [hmap]
      exact stepOK_refl s0.map
    · show WF s
      intro k r hk
      rw [hmap] at hk
      rcases hwf k r hk with ⟨h1, h2⟩
      exact ⟨h1, by omega⟩
  · rw [heq]
    have hwfd := hwf d.hostname d0 hd0
    constructor
    · show stepOK s0.map (mapSet s.map d.hostname d2)
      rw [hmap]
      exact stepOK_set_edge s0.map d.hostname d0 d2 hd0
        (by rw [hs2, ← hst]; exact hc) (by omega)
    · intro k r hk
      have hk' : mapGet (mapSet s.map d.hostname d2) k = some r := hk
      show r.hostname = k ∧ r.updatedAt < s.clock + 1
      by_cases hkd : d.hostname = k
      · subst hkd
        rw [mapGet_mapSet_self] at hk'
        injection hk' with h'
        subst h'
        exact ⟨hh, by omega⟩
      · rw [mapGet_mapSet_ne _ _ _ _ hkd, hmap] at hk'
        rcases hwf k r hk' with ⟨h1, h2⟩
        exact ⟨h1, by omega⟩

/-- When the DNS pre-check passes and the adapter create call succeeds,
`provisionDomain` ends in the state of the transition to
`provisioning_ssl` applied to the record enriched with the adapter id. -/
theorem provisionDomain_pass_ok (env : Env) (h : String) (s : ServiceState)
    (d : Domain) (adapterId : String)
    (hg : mapGet s.map h = some d) (hv : ¬ d.status = DomainStatus.provisioning_ssl)
    (hca : canTransition d.status .provisioning_ssl = true)
    (hpass : env.cnameTarget ∈ env.resolveCname d.hostname ∨
      env.resolveA d.hostname ≠ [])
    (hac : env.adapterCreate d.hostname = .ok adapterId) :
    (DomainService.provisionDomain MemoryDomainStore env h s).2 =
      (DomainService.transition MemoryDomainStore env
        { d with adapterHostnameId := some adapterId } .provisioning_ssl none
        { s with log := s.log ++ [Event.dnsCname d.hostname, Event.dnsA d.hostname,
          Event.adapterCreateCall d.hostname] }).2 := by
  rcases hpass with hmem | hemp
  · simp [DomainService.provisionDomain, MemoryDomainStore, hg, hv, assertTransition,
      hca, hmem, hac]
  · simp [DomainService.provisionDomain, MemoryDomainStore, hg, hv, assertTransition,
      hca, hemp, hac]

/-- When the DNS pre-check passes and the adapter create call throws,
`provisionDomain` ends in the state of the attempted transition to
`failed` (whether or not that inner transition itself throws). -/
theorem provisionDomain_pass_error (env : Env) (h : String) (s : ServiceState)
    (d : Domain) (e : DomainError)
    (hg : mapGet s.map h = some d) (hv : ¬ d.status = DomainStatus.provisioning_ssl)
    (hca : canTransition d.status .provisioning_ssl = true)
    (hpass : env.cnameTarget ∈ env.resolveCname d.hostname ∨
      env.resolveA d.hostname ≠ [])
    (hac : env.adapterCreate d.hostname = .error e) :
    (DomainService.provisionDomain MemoryDomainStore env h s).2 =
      (DomainService.transition MemoryDomainStore env d .failed (some e.message)
        { s with log := s.log ++ [Event.dnsCname d.hostname, Event.dnsA d.hostname,
          Event.adapterCreateCall d.hostname] }).2 := by
  rcases hpair : DomainService.transition MemoryDomainStore env d .failed
      (some e.message)
      { s with log := s.log ++ [Event.dnsCname d.hostname, Event.dnsA d.hostname,
        Event.adapterCreateCall d.hostname] } with ⟨r3, s3⟩
  have hpair2 := hpair
  simp only [MemoryDomainStore] at hpair2
  rcases hpass with hmem | hemp
  · cases r3 <;>
      simp [DomainService.provisionDomain, MemoryDomainStore, hg, hv, assertTransition,
        hca, hmem, hac, hpair, hpair2]
  · cases r3 <;>
      simp [DomainService.provisionDomain, MemoryDomainStore, hg, hv, assertTransition,
        hca, hemp, hac, hpair, hpair2]

/-- Every single service operation over the `MemoryDomainStore` preserves
the step invariant and well-formedness, provided any hostname handed to
`createDomain` is already normalized (the counterexample shows the
invariant fails without that proviso). -/
theorem runOp_step (env : Env) (o : Op) (s : ServiceState) (hwf : WF s)
    (hn : ∀ h, o = Op.createDomain h → DomainService.normalizeHostname h = h) :
    stepOK s.map (runOp MemoryDomainStore env o s).2.map ∧
    WF (runOp MemoryDomainStore env o s).2 := by
  cases o with
  | createDomain h =>
    cases hg : mapGet s.map h with
    | some ex =>
      have he : (runOp MemoryDomainStore env (Op.createDomain h) s).2 = s := by
        simp [runOp, DomainService.createDomain, MemoryDomainStore, hg]
      rw [he]
      exact ⟨stepOK_refl _, hwf⟩
    | none =>
      have hnh := hn h rfl
      have he : (runOp MemoryDomainStore env (Op.createDomain h) s).2 =
          { s with
              map := mapSet s.map h
                { id := env.uuid s.uuidCtr
                  hostname := h
                  status := .pending_verification
                  verificationToken := DomainService.generateToken env s.tokCtr
                  adapterHostnameId := none
                  error := none
                  createdAt := s.clock
                  updatedAt := s.clock + 1 }
              uuidCtr := s.uuidCtr + 1
              tokCtr := s.tokCtr + 1
              clock := s.clock + 2
              log := s.log ++ [Event.storeCreate h] } := by
        simp [runOp, DomainService.createDomain, MemoryDomainStore, hg, hnh,
          assertTransition, canTransition, STATE_TRANSITIONS]
      rw [he]
      constructor
      · exact stepOK_set_new s.map h _ hg
      · intro k r hk
        have hk' : mapGet (mapSet s.map h
            { id := env.uuid s.uuidCtr
              hostname := h
              status := .pending_verification
              verificationToken := DomainService.generateToken env s.tokCtr
              adapterHostnameId := none
              error := none
              createdAt := s.clock
              updatedAt := s.clock + 1 }) k = some r := hk
        show r.hostname = k ∧ r.updatedAt < s.clock + 2
        by_cases hkh : h = k
        · subst hkh
          rw [mapGet_mapSet_self] at hk'
          injection hk' with h'
          subst h'
          exact ⟨rfl, by show s.clock + 1 < s.clock + 2; omega⟩
        · rw [mapGet_mapSet_ne _ _ _ _ hkh] at hk'
          rcases hwf k r hk' with ⟨h1, h2⟩
          exact ⟨h1, by omega⟩
  | checkVerification h =>
    cases hg : mapGet s.map h with
    | none =>
      have he : (runOp MemoryDomainStore env (Op.checkVerification h) s).2 = s := by
        simp [runOp, DomainService.checkVerification, MemoryDomainStore, hg]
      rw [he]
      exact ⟨stepOK_refl _, hwf⟩
    | some d =>
      have hd0 : mapGet s.map d.hostname = some d := by
        rw [(hwf h d hg).1]
        exact hg
      by_cases hv : d.status = DomainStatus.verified
      · have he : (runOp MemoryDomainStore env (Op.checkVerification h) s).2 = s := by
          simp [runOp, DomainService.checkVerification, MemoryDomainStore, hg, hv]
        rw [he]
        exact ⟨stepOK_refl _, hwf⟩
      · by_cases hca : canTransition d.status .verified
        · by_cases hmem : d.verificationToken ∈
              env.resolveTxt (verificationKey ++ "." ++ d.hostname)
          · have he : (runOp MemoryDomainStore env (Op.checkVerification h) s).2 =
                (DomainService.transition MemoryDomainStore env d .verified none
                  { s with log := s.log ++
                    [Event.dnsTxt (verificationKey ++ "." ++ d.hostname)] }).2 := by
              simp [runOp, DomainService.checkVerification, MemoryDomainStore, hg, hv,
                assertTransition, hca, hmem]
            rw [he]
            exact transition_step env d .verified none s _ d rfl rfl hwf hd0 rfl
          · have he : (runOp MemoryDomainStore env (Op.checkVerification h) s).2 =
                { s with log := s.log ++
                    [Event.dnsTxt (verificationKey ++ "." ++ d.hostname)] } := by
              simp [runOp, DomainService.checkVerification, MemoryDomainStore, hg, hv,
                assertTransition, hca, hmem]
            rw [he]
            exact ⟨stepOK_refl _, hwf⟩
        · have he : (runOp MemoryDomainStore env (Op.checkVerification h) s).2 = s := by
            simp [runOp, DomainService.checkVerification, MemoryDomainStore, hg, hv,
              assertTransition, hca]
          rw [he]
          exact ⟨stepOK_refl _, hwf⟩
  | getDnsInstructions h =>
    cases hg : mapGet s.map h with
    | none =>
      have he : (runOp MemoryDomainStore env (Op.getDnsInstructions h) s).2 = s := by
        simp [runOp, DomainService.getDnsInstructions, MemoryDomainStore, hg]
      rw [he]
      exact ⟨stepOK_refl _, hwf⟩
    | some d =>
      have hd0 : mapGet s.map d.hostname = some d := by
        rw [(hwf h d hg).1]
        exact hg
      by_cases hv : d.status = DomainStatus.pending_dns
      · have he : (runOp MemoryDomainStore env (Op.getDnsInstructions h) s).2 = s := by
          simp [runOp, DomainService.getDnsInstructions, MemoryDomainStore, hg, hv]
        rw [he]
        exact ⟨stepOK_refl _, hwf⟩
      · by_cases hca : canTransition d.status .pending_dns
        · have he : (runOp MemoryDomainStore env (Op.getDnsInstructions h) s).2 =
              (DomainService.transition MemoryDomainStore env d .pending_dns none s).2 := by
            simp [runOp, DomainService.getDnsInstructions, MemoryDomainStore, hg, hv,
              assertTransition, hca]
          rw [he]
          exact transition_step env d .pending_dns none s s d rfl rfl hwf hd0 rfl
        · have he : (runOp MemoryDomainStore env (Op.getDnsInstructions h) s).2 = s := by
            simp [runOp, DomainService.getDnsInstructions, MemoryDomainStore, hg, hv,
              assertTransition, hca]
          rw [he]
          exact ⟨stepOK_refl _, hwf⟩
  | provisionDomain h =>
    cases hg : mapGet s.map h with
    | none =>
      have he : (runOp MemoryDomainStore env (Op.provisionDomain h) s).2 = s := by
        simp [runOp, DomainService.provisionDomain, MemoryDomainStore, hg]
      rw [he]
      exact ⟨stepOK_refl _, hwf⟩
    | some d =>
      have hd0 : mapGet s.map d.hostname = some d := by
        rw [(hwf h d hg).1]
        exact hg
      by_cases hv : d.status = DomainStatus.provisioning_ssl
      · have he : (runOp MemoryDomainStore env (Op.provisionDomain h) s).2 = s := by
          simp [runOp, DomainService.provisionDomain, MemoryDomainStore, hg, hv]
        rw [he]
        exact ⟨stepOK_refl _, hwf⟩
      · by_cases hca : canTransition d.status .provisioning_ssl
        · have hadapter : ∀ _hpass : env.cnameTarget ∈ env.resolveCname d.hostname ∨
              env.resolveA d.hostname ≠ [],
              stepOK s.map (runOp MemoryDomainStore env (Op.provisionDomain h) s).2.map ∧
              WF (runOp MemoryDomainStore env (Op.provisionDomain h) s).2 := by
            intro hpass
            simp only [runOp]
            cases hac : env.adapterCreate d.hostname with
            | ok adapterId =>
              rw [provisionDomain_pass_ok env h s d adapterId hg hv hca hpass hac]
              exact transition_step env { d with adapterHostnameId := some adapterId }
                .provisioning_ssl none s _ d rfl rfl hwf hd0 rfl
            | error e =>
              rw [provisionDomain_pass_error env h s d e hg hv hca hpass hac]
              exact transition_step env d .failed (some e.message) s _ d rfl rfl hwf
                hd0 rfl
          by_cases hemp : env.resolveA d.hostname = []
          · by_cases hmem : env.cnameTarget ∈ env.resolveCname d.hostname
            · exact hadapter (Or.inl hmem)
            · have he : (runOp MemoryDomainStore env (Op.provisionDomain h) s).2 =
                  { s with log := s.log ++
                      [Event.dnsCname d.hostname, Event.dnsA d.hostname] } := by
                simp [runOp, DomainService.provisionDomain, MemoryDomainStore, hg, hv,
                  assertTransition, hca, hmem, hemp]
              rw [he]
              exact ⟨stepOK_refl _, hwf⟩
          · exact hadapter (Or.inr hemp)
        · have he : (runOp MemoryDomainStore env (Op.provisionDomain h) s).2 = s := by
            simp [runOp, DomainService.provisionDomain, MemoryDomainStore, hg, hv,
              assertTransition, hca]
          rw [he]
          exact ⟨stepOK_refl _, hwf⟩
  | syncStatus h =>
    cases hg : mapGet s.map h with
    | none =>
      have he : (runOp MemoryDomainStore env (Op.syncStatus h) s).2 = s := by
        simp [runOp, DomainService.syncStatus, MemoryDomainStore, hg]
      rw [he]
      exact ⟨stepOK_refl _, hwf⟩
    | some d =>
      have hd0 : mapGet s.map d.hostname = some d := by
        rw [(hwf h d hg).1]
        exact hg
      by_cases hv : d.status = DomainStatus.active
      · have he : (runOp MemoryDomainStore env (Op.syncStatus h) s).2 = s := by
          simp [runOp, DomainService.syncStatus, MemoryDomainStore, hg, hv]
        rw [he]
        exact ⟨stepOK_refl _, hwf⟩
      · cases haid : d.adapterHostnameId with
        | none =>
          have he : (runOp MemoryDomainStore env (Op.syncStatus h) s).2 = s := by
            simp [runOp, DomainService.syncStatus, MemoryDomainStore, hg, hv, haid]
          rw [he]
          exact ⟨stepOK_refl _, hwf⟩
        | some aid =>
          cases hcf : env.adapterStatus aid with
          | error e =>
            have he : (runOp MemoryDomainStore env (Op.syncStatus h) s).2 =
                { s with log := s.log ++ [Event.adapterStatusCall aid] } := by
              simp [runOp, DomainService.syncStatus, MemoryDomainStore, hg, hv, haid, hcf]
            rw [he]
            exact ⟨stepOK_refl _, hwf⟩
          | ok cf =>
            by_cases hact : cf.status = "active"
            · have he : (runOp MemoryDomainStore env (Op.syncStatus h) s).2 =
                  (DomainService.transition MemoryDomainStore env d .active none
                    { s with log := s.log ++ [Event.adapterStatusCall aid] }).2 := by
                simp [runOp, DomainService.syncStatus, MemoryDomainStore, hg, hv, haid,
                  hcf, hact]
              rw [he]
              exact transition_step env d .active none s _ d rfl rfl hwf hd0 rfl
            · by_cases hfail : cf.status = "failed"
              · have he : (runOp MemoryDomainStore env (Op.syncStatus h) s).2 =
                    (DomainService.transition MemoryDomainStore env d .failed
                      (cf.verificationErrors.map (String.intercalate ", "))
                      { s with log := s.log ++ [Event.adapterStatusCall aid] }).2 := by
                  simp [runOp, DomainService.syncStatus, MemoryDomainStore, hg, hv, haid,
                    hcf, hact, hfail]
                rw [he]
                exact transition_step env d .failed
                  (cf.verificationErrors.map (String.intercalate ", ")) s _ d rfl rfl
                  hwf hd0 rfl
              · have he : (runOp MemoryDomainStore env (Op.syncStatus h) s).2 =
                    { s with log := s.log ++ [Event.adapterStatusCall aid] } := by
                  simp [runOp, DomainService.syncStatus, MemoryDomainStore, hg, hv, haid,
                    hcf, hact, hfail]
                rw [he]
                exact ⟨stepOK_refl _, hwf⟩
  | getStatus h =>
    cases hg : mapGet s.map h with
    | none =>
      have he : (runOp MemoryDomainStore env (Op.getStatus h) s).2 = s := by
        simp [runOp, DomainService.getStatus, MemoryDomainStore, hg]
      rw [he]
      exact ⟨stepOK_refl _, hwf⟩
    | some d =>
      have he : (runOp MemoryDomainStore env (Op.getStatus h) s).2 = s := by
        simp [runOp, DomainService.getStatus, MemoryDomainStore, hg]
      rw [he]
      exact ⟨stepOK_refl _, hwf⟩

/-- The empty initial state is well-formed. -/
theorem WF_initState : WF initState := by
  intro k r hk
  simp [initState, mapGet] at hk

/-- The step invariant holds along every operation sequence started in a
well-formed state, with normalized `createDomain` hostnames. -/
theorem runOps_chain (env : Env) : ∀ (ops : List Op) (s : ServiceState), WF s →
    (∀ h, Op.createDomain h ∈ ops → DomainService.normalizeHostname h = h) →
    List.Chain' (fun s1 s2 => stepOK s1.map s2.map)
      (statesOf MemoryDomainStore env ops s) := by
  intro ops
  induction ops with
  | nil =>
    intro s _ _
    simp [statesOf]
  | cons o rest ih =>
    intro s hwf hn
    have hstep := runOp_step env o s hwf
      (fun h he => hn h (by rw [he]; exact List.mem_cons_self _ _))
    have ihh := ih (runOp MemoryDomainStore env o s).2 hstep.2
      (fun h hm => hn h (List.mem_cons_of_mem _ hm))
    show List.Chain' _
      (s :: statesOf MemoryDomainStore env rest (runOp MemoryDomainStore env o s).2)
    cases rest with
    | nil => exact List.chain'_cons.mpr ⟨hstep.1, ihh⟩
    | cons o2 r2 => exact List.chain'_cons.mpr ⟨hstep.1, ihh⟩

/-- Environment whose TXT answer always carries the `env0` token. -/
def envTok : Env := { env0 with resolveTxt := fun _ => [tok0] }

/-- C2 counterexample: `createDomain` looks the raw hostname up but
persists under the normalized one, so calling it with the unnormalized
`" a.com"` after `"a.com"` reached `verified` replaces the stored record:
the persisted status at key "a.com" jumps from `verified` back to
`pending_verification` - not an edge of the state machine - and the
record identity silently changes. -/
theorem memoryStore_status_leaves_graph_on_unnormalized_create :
    (mapGet (runOps MemoryDomainStore envTok [Op.createDomain "a.com",
      Op.checkVerification "a.com"] initState).map "a.com").map Domain.status =
      some .verified ∧
    (mapGet (runOps MemoryDomainStore envTok [Op.createDomain "a.com",
      Op.checkVerification "a.com", Op.createDomain " a.com"] initState).map
      "a.com").map Domain.status = some .pending_verification ∧
    (mapGet (runOps MemoryDomainStore envTok [Op.createDomain "a.com",
      Op.checkVerification "a.com"] initState).map "a.com").map Domain.id =
      some "id-0" ∧
    (mapGet (runOps MemoryDomainStore envTok [Op.createDomain "a.com",
      Op.checkVerification "a.com", Op.createDomain " a.com"] initState).map
      "a.com").map Domain.id = some "id-1" ∧
    canTransition .verified .pending_verification = false ∧
    DomainService.normalizeHostname " a.com" = "a.com" := by
  decide

/-- C2 amended: provided every hostname handed to `createDomain` is
already normalized, every operation sequence from the empty store keeps
the invariant: along consecutive states, each persisted record either
stays exactly the same or moves along one legal `canTransition` edge with
a strictly increased `updatedAt` (so `updatedAt` changes exactly on
accepted transitions), and no record is ever deleted. Moreover every
idempotent short-circuit (operation called when the record is already in
its target status, or `createDomain` on any existing record) returns the
current instructions and leaves the whole state - the record and its
`updatedAt` included - untouched. -/
theorem memoryStore_trace_invariant_for_normalized_creates
    (env : Env) (ops : List Op)
    (hn : ∀ h, Op.createDomain h ∈ ops → DomainService.normalizeHostname h = h) :
    List.Chain' (fun s1 s2 => stepOK s1.map s2.map)
      (statesOf MemoryDomainStore env ops initState) ∧
    (∀ (s : ServiceState) (h : String) (d : Domain), mapGet s.map h = some d →
      DomainService.createDomain MemoryDomainStore env h s =
        (.ok (DomainService.getInstructions env d), s)) ∧
    (∀ (s : ServiceState) (h : String) (d : Domain), mapGet s.map h = some d →
      d.status = .verified →
      DomainService.checkVerification MemoryDomainStore env h s =
        (.ok (DomainService.getInstructions env d), s)) ∧
    (∀ (s : ServiceState) (h : String) (d : Domain), mapGet s.map h = some d →
      d.status = .pending_dns →
      DomainService.getDnsInstructions MemoryDomainStore env h s =
        (.ok (DomainService.getInstructions env d), s)) ∧
    (∀ (s : ServiceState) (h : String) (d : Domain), mapGet s.map h = some d →
      d.status = .provisioning_ssl →
      DomainService.provisionDomain MemoryDomainStore env h s =
        (.ok (DomainService.getInstructions env d), s)) ∧
    (∀ (s : ServiceState) (h : String) (d : Domain), mapGet s.map h = some d →
      d.status = .active →
      DomainService.syncStatus MemoryDomainStore env h s =
        (.ok (DomainService.getInstructions env d), s)) := by
  refine ⟨runOps_chain env ops initState WF_initState hn, ?_, ?_, ?_, ?_, ?_⟩
  · intro s h d hg
    simp [DomainService.createDomain, MemoryDomainStore, hg]
  · intro s h d hg hst
    simp [DomainService.checkVerification, MemoryDomainStore, hg, hst]
  · intro s h d hg hst
    simp [DomainService.getDnsInstructions, MemoryDomainStore, hg, hst]
  · intro s h d hg hst
    simp [DomainService.provisionDomain, MemoryDomainStore, hg, hst]
  · intro s h d hg hst
    simp [DomainService.syncStatus, MemoryDomainStore, hg, hst]

/-- C2 witness: the invariant chain for a concrete lifecycle run, plus a
concrete idempotent short-circuit that leaves the state untouched. -/
theorem memoryStore_trace_invariant_witness :
    (∀ h, Op.createDomain h ∈ [Op.createDomain "a.com", Op.checkVerification "a.com",
        Op.getDnsInstructions "a.com", Op.getDnsInstructions "a.com"] →
      DomainService.normalizeHostname h = h) ∧
    List.Chain' (fun s1 s2 => stepOK s1.map s2.map)
      (statesOf MemoryDomainStore envTok [Op.createDomain "a.com",
        Op.checkVerification "a.com", Op.getDnsInstructions "a.com",
        Op.getDnsInstructions "a.com"] initState) := by
  have hn : ∀ h, Op.createDomain h ∈ [Op.createDomain "a.com",
      Op.checkVerification "a.com", Op.getDnsInstructions "a.com",
      Op.getDnsInstructions "a.com"] → DomainService.normalizeHostname h = h := by
    intro h hm
    simp at hm
    subst hm
    decide
  exact ⟨hn, (memoryStore_trace_invariant_for_normalized_creates envTok
    [Op.createDomain "a.com", Op.checkVerification "a.com",
     Op.getDnsInstructions "a.com", Op.getDnsInstructions "a.com"] hn).1⟩

end CustomDomainSDK
